import Mathlib

/-!
Shallow embedding of the hack-the-future backend fragment:
the users controller (src/server/src/controller/users.controller.js),
the users table schema (src/db/schema/users.js, appended to the controller
source), and the teams router (src/server/src/route/teams.route.js).
JS strings are modelled as Lean strings; where character-level behaviour
matters (trimming, lowercasing, SQL LIKE patterns, ordering) we work over
the list of Unicode code points of the string, which mirrors the byte-wise
behaviour of the database for the ASCII inputs the controller handles.
-/

namespace HackFuture

/-! ### Character-level string machinery -/

/-- Code points of a string, as natural numbers. -/
def codes (s : String) : List Nat := s.toList.map Char.toNat

/-- Whitespace recognised by the JS String.prototype.trim used in the
controller (space, tab, line feed, carriage return). -/
def isWsCode (n : Nat) : Bool := n == 32 || n == 9 || n == 10 || n == 13

/-- Code points of the JS-trimmed string: leading and trailing whitespace
removed, mirroring q.trim() in the controller. -/
def trimCodes (s : String) : List Nat :=
  (((codes s).dropWhile isWsCode).reverse.dropWhile isWsCode).reverse

/-- ASCII lowercasing of one code point, as the database ILIKE operator
applies to both pattern and text. -/
def lowerCode (n : Nat) : Nat := if 65 ≤ n && n ≤ 90 then n + 32 else n

/-- ASCII lowercasing of a code-point list. -/
def lowerCodes (l : List Nat) : List Nat := l.map lowerCode

/-- All suffixes of a list, longest first. -/
def allSuffixes : List Nat → List (List Nat)
  | [] => [[]]
  | c :: cs => (c :: cs) :: allSuffixes cs

/-- SQL LIKE pattern matching over code points: 37 (percent) matches any
sequence, 95 (underscore) matches exactly one character, anything else
matches itself.  The pattern must cover the whole text. -/
def likeMatch : List Nat → List Nat → Bool
  | [], s => s.isEmpty
  | 37 :: ps, s => (allSuffixes s).any (fun t => likeMatch ps t)
  | 95 :: ps, s =>
      match s with
      | [] => false
      | _ :: cs => likeMatch ps cs
  | p :: ps, s =>
      match s with
      | [] => false
      | c :: cs => (c == p) && likeMatch ps cs

/-- ILIKE with the pattern percent-term-percent, as built by the controller
with ilike(column, interpolated term): case-insensitive LIKE over the whole
column value. -/
def ilikeContains (term : List Nat) (text : List Nat) : Bool :=
  likeMatch (37 :: lowerCodes term ++ [37]) (lowerCodes text)

/-- Literal list containment of one code-point list at the head of another. -/
def startsWithCodes : List Nat → List Nat → Bool
  | [], _ => true
  | _ :: _, [] => false
  | a :: as, b :: bs => (a == b) && startsWithCodes as bs

/-- Literal (wildcard-free) substring containment of code-point lists. -/
def containsSub : List Nat → List Nat → Bool
  | needle, [] => startsWithCodes needle []
  | needle, c :: cs => startsWithCodes needle (c :: cs) || containsSub needle cs

/-- Case-insensitive literal substring containment, the reading of
case-insensitive substring match used by the specification. -/
def substrCI (needle : List Nat) (hay : List Nat) : Bool :=
  containsSub (lowerCodes needle) (lowerCodes hay)

/-- Byte-wise comparison of code-point lists, modelling the ORDER BY
comparison the database applies to full_name. -/
def codesLe : List Nat → List Nat → Bool
  | [], _ => true
  | _ :: _, [] => false
  | a :: as, b :: bs =>
      if a < b then true
      else if b < a then false
      else codesLe as bs

/-! ### Insertion sort (model of the ORDER BY clause) -/

/-- Insert an element into a list sorted by the boolean relation le. -/
def ordIns (le : α → α → Bool) (a : α) : List α → List α
  | [] => [a]
  | b :: l => if le a b then a :: b :: l else b :: ordIns le a l

/-- Insertion sort by the boolean relation le, the model of the single
ORDER BY clause of the search query. -/
def insSort (le : α → α → Bool) : List α → List α
  | [] => []
  | a :: l => ordIns le a (insSort le l)

/-! ### Data model

A row of the users table, carrying exactly the columns the schema file
declares: id, email, full_name, user_name, password, avatar_url, bio,
is_verified, code, expires_at, created_at and updated_at.  The controller
additionally references skills, socialLinks, interests and location on the
table, but the schema declares no such columns, so rows store no values
for them.  Nullable columns are Option-valued; timestamps are modelled as
naturals. -/
structure User where
  id : String
  email : String
  fullName : String
  userName : Option String
  password : String
  avatarUrl : String
  bio : String
  isVerified : Bool
  code : String
  expiresAt : Nat
  createdAt : Nat
  updatedAt : Nat
deriving Repr, DecidableEq

/-- Error thrown as ApiError(statusCode, message) in the controller. -/
structure ApiErr where
  statusCode : Nat
  message : String
deriving Repr, DecidableEq

/-- Property names of the columns the users table actually declares. -/
def usersTableFieldNames : List String :=
  ["id", "email", "fullName", "userName", "password", "avatarUrl", "bio",
    "isVerified", "code", "expiresAt", "createdAt", "updatedAt"]

/-- A select or returning object builds only when every table property it
references is a declared column: an undefined property (such as
usersTable.location or the misspelled usersTable.socialsLinks) makes the
query builder throw while ordering the selected fields, before any SQL is
sent.  The handler wrapper surfaces that non-ApiError failure as a 500. -/
def selectionResolves (keys : List String) : Bool :=
  keys.all (fun k => usersTableFieldNames.contains k)

/-- Error produced when the query builder throws on an undeclared column
reference and the wrapper maps the failure to a 500 response. -/
def builderError : ApiErr := ⟨500, "Internal Server Error"⟩

/-! ### searchUsers (users.controller.js lines 184-216) -/

/-- Row shape selected by searchUsers: id, fullName, username, email,
avatarUrl, bio. -/
structure SearchRow where
  id : String
  fullName : String
  username : Option String
  email : String
  avatarUrl : String
  bio : String
deriving Repr, DecidableEq

/-- Projection of a user row to the searchUsers selection. -/
def toSearchRow (u : User) : SearchRow :=
  ⟨u.id, u.fullName, u.userName, u.email, u.avatarUrl, u.bio⟩

/-- WHERE clause of searchUsers: ilike on full_name, user_name or email
against the pattern percent-term-percent.  An ILIKE over a NULL user_name
is not satisfied. -/
def matchesSearch (term : List Nat) (u : User) : Bool :=
  ilikeContains term (codes u.fullName) ||
    (match u.userName with
      | some s => ilikeContains term (codes s)
      | none => false) ||
    ilikeContains term (codes u.email)

/-- Comparison used by orderBy(usersTable.fullName): ascending on the
full_name column. -/
def userNameOrder (u v : User) : Bool := codesLe (codes u.fullName) (codes v.fullName)

/-- Model of searchUsers: fails with 400 when the query is absent, empty or
shorter than two characters after trimming; otherwise filters the store by
the ILIKE disjunction over the trimmed term, orders by full_name ascending,
caps at the limit (10 when absent) and projects each row. -/
def searchUsers (q : Option String) (limitParam : Option Nat) (store : List User) :
    Except ApiErr (List SearchRow) :=
  match q with
  | none => Except.error ⟨400, "Search query must be at least 2 characters"⟩
  | some qs =>
      if (trimCodes qs).length < 2 then
        Except.error ⟨400, "Search query must be at least 2 characters"⟩
      else
        let term := trimCodes qs
        let lim := limitParam.getD 10
        Except.ok
          (((insSort userNameOrder (store.filter (matchesSearch term))).take lim).map
            toSearchRow)

/-! ### getUserProfileByUsername (lines 94-123) and getUserProfile (lines 125-154) -/

/-- Table properties referenced by the select object of
getUserProfileByUsername, in source order.  location, socialLinks, skills
and interests are not declared columns. -/
def getUserProfileByUsernameSelectKeys : List String :=
  ["id", "fullName", "userName", "bio", "location", "avatarUrl",
    "socialLinks", "skills", "interests"]

/-- Table properties referenced by the select object of getUserProfile, in
source order.  socialsLinks is the source misspelling; it, location, skills
and interests are not declared columns. -/
def getUserProfileSelectKeys : List String :=
  ["id", "fullName", "userName", "bio", "location", "avatarUrl",
    "socialsLinks", "skills", "interests"]

/-- Row shape of the declared-column part of the getUserProfileByUsername
selection.  The remaining referenced keys name no declared column, so no
value can be stored or selected for them and the selection never builds;
the success branch below is therefore unreachable. -/
structure ByUsernameRow where
  id : String
  fullName : String
  userName : Option String
  bio : String
  avatarUrl : String
deriving Repr, DecidableEq

/-- Projection of a user row to the declared-column part of the
getUserProfileByUsername selection. -/
def byUsernameRow (u : User) : ByUsernameRow :=
  ⟨u.id, u.fullName, u.userName, u.bio, u.avatarUrl⟩

/-- Row shape of the declared-column part of the getUserProfile selection;
as with ByUsernameRow, the undeclared keys make the selection fail to
build, so the success branch is unreachable. -/
structure ByIdRow where
  id : String
  fullName : String
  userName : Option String
  bio : String
  avatarUrl : String
deriving Repr, DecidableEq

/-- Projection of a user row to the declared-column part of the
getUserProfile selection. -/
def byIdRow (u : User) : ByIdRow :=
  ⟨u.id, u.fullName, u.userName, u.bio, u.avatarUrl⟩

/-- Model of getUserProfileByUsername: 400 when the userName query
parameter is absent or empty (a falsy value in the source); then the select
object is built, and since it references the undeclared location,
socialLinks, skills and interests properties the builder throws and the
wrapper responds 500.  Were the selection buildable, the handler would 404
on no matching row and otherwise return the first match (equality against a
NULL user_name is not satisfied). -/
def getUserProfileByUsername (userNameParam : Option String) (store : List User) :
    Except ApiErr ByUsernameRow :=
  match userNameParam with
  | none => Except.error ⟨400, "Username query parameter is required"⟩
  | some uname =>
      if uname = "" then Except.error ⟨400, "Username query parameter is required"⟩
      else if !(selectionResolves getUserProfileByUsernameSelectKeys) then
        Except.error builderError
      else
        match store.find? (fun u => u.userName == some uname) with
        | none => Except.error ⟨404, "User not found"⟩
        | some u => Except.ok (byUsernameRow u)

/-- Model of getUserProfile: 400 when the userId route parameter is empty
(falsy in the source); then the select object is built, and since it
references the undeclared location, socialsLinks, skills and interests
properties the builder throws and the wrapper responds 500.  Were the
selection buildable, the handler would 404 on no matching row and otherwise
return the first match. -/
def getUserProfile (userIdParam : String) (store : List User) :
    Except ApiErr ByIdRow :=
  if userIdParam = "" then Except.error ⟨400, "User ID is required"⟩
  else if !(selectionResolves getUserProfileSelectKeys) then
    Except.error builderError
  else
    match store.find? (fun u => u.id == userIdParam) with
    | none => Except.error ⟨404, "User not found"⟩
    | some u => Except.ok (byIdRow u)

/-! ### updateUserProfile (lines 44-92) -/

/-- Request body destructured by updateUserProfile.  A field is none when
the JSON body omits it (undefined in the source). -/
structure ProfileBody where
  firstName : Option String
  lastName : Option String
  userName : Option String
  location : Option String
  bio : Option String
  skills : Option String
  socialLinks : Option String
  interests : Option String
deriving Repr, DecidableEq

/-- JS template-literal interpolation of a possibly-undefined value: an
absent value prints as the text undefined. -/
def tmplVal : Option String → String
  | some s => s
  | none => "undefined"

/-- Value written to full_name: the template literal joining firstName and
lastName with a space. -/
def joinedFullName (b : ProfileBody) : String :=
  tmplVal b.firstName ++ " " ++ tmplVal b.lastName

/-- Drizzle update-set semantics on one row under the staged schema: SET
entries with undefined values are filtered out, entries whose key names no
declared column (skills, interests, socialLinks, location) are dropped when
the SET sql is assembled from the declared column list, and the remaining
declared keys are written: fullName (always a defined string by the
template literal), userName and bio when supplied, and updatedAt.
Unreachable in updateUserProfile, whose returning clause fails to build
first. -/
def applyProfileSet (b : ProfileBody) (now : Nat) (u : User) : User :=
  { u with
    fullName := joinedFullName b
    userName := match b.userName with
      | some s => some s
      | none => u.userName
    bio := b.bio.getD u.bio
    updatedAt := now }

/-- Table properties referenced by the returning object of
updateUserProfile, in source order.  location, socialLinks, skills and
interests are not declared columns. -/
def updateUserProfileReturningKeys : List String :=
  ["fullName", "userName", "bio", "location", "socialLinks", "skills",
    "interests"]

/-- Row shape of the declared-column part of the updateUserProfile
returning clause; the undeclared keys make the clause fail to build, so the
success branch is unreachable. -/
structure ProfileView where
  fullName : String
  userName : Option String
  bio : String
deriving Repr, DecidableEq

/-- Projection of a user row to the declared-column part of the
updateUserProfile returning clause. -/
def profileView (u : User) : ProfileView :=
  ⟨u.fullName, u.userName, u.bio⟩

/-- Model of updateUserProfile: the handler assembles
update-set-where-returning before anything is sent, and the returning
object references the undeclared location, socialLinks, skills and
interests properties, so the builder throws, no UPDATE reaches the
database, the store is unchanged and the wrapper responds 500.  Were the
clause buildable, the UPDATE would touch every row whose id is the callers
id and the handler would 404 when that affected zero rows.  The resulting
store is returned alongside the response so that effects on rows are
observable. -/
def updateUserProfile (b : ProfileBody) (userId : String) (now : Nat)
    (store : List User) : List User × Except ApiErr ProfileView :=
  if !(selectionResolves updateUserProfileReturningKeys) then
    (store, Except.error builderError)
  else
    let store2 := store.map (fun u => if u.id = userId then applyProfileSet b now u else u)
    (store2,
      match store2.find? (fun u => u.id == userId) with
      | none => Except.error ⟨404, "User not found"⟩
      | some u => Except.ok (profileView u))

/-! ### uploadProfileImage (lines 11-42) -/

/-- Result of the Cloudinary collaborator on success. -/
structure UploadResult where
  secure_url : String
deriving Repr, DecidableEq

/-- Response body of a successful avatar upload. -/
structure AvatarResp where
  avatarUrl : String
deriving Repr, DecidableEq

/-- Object id generated for the storage collaborator:
user underscore id underscore timestamp. -/
def cloudPublicId (userId : String) (now : Nat) : String :=
  "user_" ++ userId ++ "_" ++ toString now

/-- Model of uploadProfileImage.  The external storage call is a parameter:
error unit when the collaborator throws, ok with the upload result
otherwise.  A missing file gives 400 before the call; a collaborator
failure is caught and rethrown as 500 Cloudinary upload failed, before any
database write; on success the avatar_url of the callers row is set to the
returned secure_url and the handler responds 200 with that url. -/
def uploadProfileImage (userId : String) (hasFile : Bool)
    (cloud : Except Unit UploadResult) (store : List User) :
    List User × Except ApiErr AvatarResp :=
  if !hasFile then (store, Except.error ⟨400, "No file uploaded"⟩)
  else
    match cloud with
    | Except.error _ => (store, Except.error ⟨500, "Cloudinary upload failed"⟩)
    | Except.ok r =>
        (store.map (fun u => if u.id = userId then { u with avatarUrl := r.secure_url } else u),
          Except.ok ⟨r.secure_url⟩)

/-! ### updateUserRole (lines 157-181) and the users table schema

The schema file (src/db/schema/users.js) declares the users table with the
column set below; the role column appears only as a commented-out line,
while the JSDoc typedefs in the same file document a role property on User
and an optional role on NewUser.  updateUserRole nevertheless writes the
key role in its SET clause and selects usersTable.role in its returning
clause.  The declared column set is usersTableFieldNames above. -/

/-- Keys written by the SET clause of updateUserRole. -/
def updateUserRoleSetFields : List String := ["role", "updatedAt"]

/-- Keys selected by the returning clause of updateUserRole. -/
def updateUserRoleReturningFields : List String :=
  ["id", "fullName", "userName", "role"]

/-- Properties the JSDoc User typedef documents on a user record. -/
def userTypedefFields : List String :=
  ["id", "email", "fullName", "userName", "password", "role", "createdAt",
    "updatedAt", "isVerified", "code", "expiresAt"]

/-! ### Teams router (src/server/src/route/teams.route.js) -/

/-- HTTP method of a route registration. -/
inductive HMethod where
  | hGet
  | hPost
  | hPut
  | hDelete
deriving Repr, DecidableEq

/-- One router registration: method, path, and the chain of middleware and
handler names in the order they were passed to the router, the handler
last. -/
structure Route where
  method : HMethod
  path : String
  chain : List String
deriving Repr, DecidableEq

/-- The nine registrations of teams.route.js, in source order.  Commented
out registrations (delete, search, members) are not part of the router. -/
def teamsRoutes : List Route :=
  [⟨HMethod.hPost, "/", ["verifyJWT", "validate(createTeamSchema)", "createTeam"]⟩,
    ⟨HMethod.hGet, "/:teamId", ["getTeamById"]⟩,
    ⟨HMethod.hPut, "/:teamId", ["verifyJWT", "validate(updateTeamSchema)", "updateTeamInfo"]⟩,
    ⟨HMethod.hPost, "/:teamId/join", ["verifyJWT", "joinTeam"]⟩,
    ⟨HMethod.hDelete, "/:teamId/leave", ["verifyJWT", "leaveTeam"]⟩,
    ⟨HMethod.hDelete, "/:teamId/members/:userId", ["verifyJWT", "removeMember"]⟩,
    ⟨HMethod.hPut, "/:teamId/transfer/:userId", ["verifyJWT", "transferLeadership"]⟩,
    ⟨HMethod.hGet, "/hackathon/:hackathonId", ["getTeamsByHackathon"]⟩,
    ⟨HMethod.hGet, "/user/my-teams", ["verifyJWT", "getUserTeams"]⟩]

/-- Handlers the interface table marks as requiring authentication. -/
def authRequiredHandlers : List String :=
  ["createTeam", "updateTeamInfo", "joinTeam", "leaveTeam", "removeMember",
    "transferLeadership", "getUserTeams"]

/-- Handlers the interface table marks as public. -/
def publicHandlers : List String := ["getTeamById", "getTeamsByHackathon"]

/-- One route carries the given handler as its final chain element with the
token-verifying middleware somewhere earlier in the chain. -/
def handlerBehindAuth (h : String) (r : Route) : Bool :=
  r.chain.getLast? == some h && r.chain.dropLast.contains "verifyJWT"

/-- One route carries the given handler as its final chain element with no
token-verifying middleware anywhere in the chain. -/
def handlerPublic (h : String) (r : Route) : Bool :=
  r.chain.getLast? == some h && !(r.chain.contains "verifyJWT")

/-! ### Team domain model

Modelled from the spec: teams.controller.js is not among the provided
sources (only teams.route.js, its router, is), so the Team Service
operations follow section 4.1 of the specification: createTeam, joinTeam,
leaveTeam, removeMember, transferLeadership, updateTeamInfo, with the data
model of section 3.  Fresh-id generation for createTeam is modelled by a
guard rejecting an id already present among teams or memberships, standing
in for the UUID primary key and the foreign key from memberships to
teams. -/

/-- Team row of section 3. -/
structure Team where
  id : String
  hackathonId : String
  name : String
  description : String
  leaderId : String
  maxMembers : Nat
deriving Repr, DecidableEq

/-- TeamMembership row of section 3 (joinedAt omitted: no operation reads it). -/
structure Membership where
  teamId : String
  userId : String
deriving Repr, DecidableEq

/-- Store state visible to the Team Service. -/
structure TeamState where
  teams : List Team
  memberships : List Membership
deriving Repr, DecidableEq

/-- Error taxonomy of section 7 restricted to the Team Service. -/
inductive TeamErr where
  | notFound
  | capacity
  | conflict
  | validation
  | forbidden
  | leadershipRequired
deriving Repr, DecidableEq

/-- Number of TeamMembership rows of one team. -/
def memberCount (st : TeamState) (tid : String) : Nat :=
  (st.memberships.filter (fun m => m.teamId == tid)).length

/-- First team row with the given id. -/
def findTeam (st : TeamState) (tid : String) : Option Team :=
  st.teams.find? (fun t => t.id == tid)

/-- Membership test for one user in one team. -/
def isMember (st : TeamState) (tid uid : String) : Bool :=
  st.memberships.any (fun m => m.teamId == tid && m.userId == uid)

/-- Modelled from the spec, section 4.1: createTeam makes a new team with
the creator as leader and first member; ValidationError when maxMembers is
below one or the name is empty; ConflictError when the creator already
leads or joined a team of that hackathon; the fresh-id guard models UUID
generation and the membership foreign key. -/
def createTeam (newId hackId creatorId tname descr : String) (maxMembers : Nat)
    (st : TeamState) : Except TeamErr TeamState :=
  if maxMembers < 1 || tname = "" then Except.error TeamErr.validation
  else if st.teams.any (fun t =>
      t.hackathonId == hackId && (t.leaderId == creatorId || isMember st t.id creatorId)) then
    Except.error TeamErr.conflict
  else if st.teams.any (fun t => t.id == newId) ||
      st.memberships.any (fun m => m.teamId == newId) then
    Except.error TeamErr.conflict
  else
    Except.ok
      ⟨⟨newId, hackId, tname, descr, creatorId, maxMembers⟩ :: st.teams,
        ⟨newId, creatorId⟩ :: st.memberships⟩

/-- Modelled from the spec, section 4.1: joinTeam fails NotFound when the
team is absent, Capacity when the member count already reached maxMembers,
Conflict when the user is already a member, and otherwise inserts the
membership row. -/
def joinTeam (tid uid : String) (st : TeamState) : Except TeamErr TeamState :=
  match findTeam st tid with
  | none => Except.error TeamErr.notFound
  | some t =>
      if t.maxMembers ≤ memberCount st tid then Except.error TeamErr.capacity
      else if isMember st tid uid then Except.error TeamErr.conflict
      else Except.ok ⟨st.teams, ⟨tid, uid⟩ :: st.memberships⟩

/-- Modelled from the spec, section 4.1: leaveTeam fails NotFound when the
membership (or the team) is absent; a leader with other members remaining
gets LeadershipRequired; a sole leaving member deletes the team; otherwise
the membership row is removed. -/
def leaveTeam (tid uid : String) (st : TeamState) : Except TeamErr TeamState :=
  if !(isMember st tid uid) then Except.error TeamErr.notFound
  else
    match findTeam st tid with
    | none => Except.error TeamErr.notFound
    | some t =>
        if t.leaderId == uid then
          if memberCount st tid ≤ 1 then
            Except.ok
              ⟨st.teams.filter (fun t2 => !(t2.id == tid)),
                st.memberships.filter (fun m => !(m.teamId == tid))⟩
          else Except.error TeamErr.leadershipRequired
        else
          Except.ok
            ⟨st.teams,
              st.memberships.filter (fun m => !(m.teamId == tid && m.userId == uid))⟩

/-- Modelled from the spec, section 4.1: removeMember requires the actor to
be the leader, disallows removing the leader, requires the target to be a
member, and removes the membership row. -/
def removeMember (tid actorId targetId : String) (st : TeamState) :
    Except TeamErr TeamState :=
  match findTeam st tid with
  | none => Except.error TeamErr.notFound
  | some t =>
      if !(t.leaderId == actorId) then Except.error TeamErr.forbidden
      else if t.leaderId == targetId then Except.error TeamErr.forbidden
      else if !(isMember st tid targetId) then Except.error TeamErr.notFound
      else
        Except.ok
          ⟨st.teams,
            st.memberships.filter (fun m => !(m.teamId == tid && m.userId == targetId))⟩

/-- Modelled from the spec, section 4.1: transferLeadership requires the
actor to be the leader and the new leader to be a member, then updates
leaderId. -/
def transferLeadership (tid actorId newLeaderId : String) (st : TeamState) :
    Except TeamErr TeamState :=
  match findTeam st tid with
  | none => Except.error TeamErr.notFound
  | some t =>
      if !(t.leaderId == actorId) then Except.error TeamErr.forbidden
      else if !(isMember st tid newLeaderId) then Except.error TeamErr.notFound
      else
        Except.ok
          ⟨st.teams.map (fun t2 => if t2.id == tid then { t2 with leaderId := newLeaderId } else t2),
            st.memberships⟩

/-- Modelled from the spec, section 4.1: updateTeamInfo requires the actor
to be the leader, applies a partial update to name, description and
maxMembers, and fails Capacity when the new maxMembers is below the current
member count. -/
def updateTeamInfo (tid actorId : String) (tname descr : Option String)
    (newMax : Option Nat) (st : TeamState) : Except TeamErr TeamState :=
  match findTeam st tid with
  | none => Except.error TeamErr.notFound
  | some t =>
      if !(t.leaderId == actorId) then Except.error TeamErr.forbidden
      else
        match newMax with
        | some m =>
            if m < memberCount st tid then Except.error TeamErr.capacity
            else
              Except.ok
                ⟨st.teams.map (fun t2 =>
                    if t2.id == tid then
                      { t2 with
                        name := tname.getD t2.name
                        description := descr.getD t2.description
                        maxMembers := m }
                    else t2),
                  st.memberships⟩
        | none =>
            Except.ok
              ⟨st.teams.map (fun t2 =>
                  if t2.id == tid then
                    { t2 with
                      name := tname.getD t2.name
                      description := descr.getD t2.description }
                  else t2),
                st.memberships⟩

/-- One Team Service operation of the mutating surface. -/
inductive TeamOp where
  | create (newId hackId creatorId tname descr : String) (maxMembers : Nat)
  | join (tid uid : String)
  | leave (tid uid : String)
  | remove (tid actorId targetId : String)
  | transfer (tid actorId newLeaderId : String)
  | update (tid actorId : String) (tname descr : Option String) (newMax : Option Nat)
deriving Repr, DecidableEq

/-- Dispatch of one operation. -/
def applyOp : TeamOp → TeamState → Except TeamErr TeamState
  | TeamOp.create newId hackId creatorId tname descr maxMembers =>
      createTeam newId hackId creatorId tname descr maxMembers
  | TeamOp.join tid uid => joinTeam tid uid
  | TeamOp.leave tid uid => leaveTeam tid uid
  | TeamOp.remove tid actorId targetId => removeMember tid actorId targetId
  | TeamOp.transfer tid actorId newLeaderId => transferLeadership tid actorId newLeaderId
  | TeamOp.update tid actorId tname descr newMax => updateTeamInfo tid actorId tname descr newMax

/-- State after one operation: a failed operation leaves the store
untouched. -/
def stepOp (op : TeamOp) (st : TeamState) : TeamState :=
  match applyOp op st with
  | Except.ok st2 => st2
  | Except.error _ => st

/-- State after a sequence of operations. -/
def runOps : List TeamOp → TeamState → TeamState
  | [], st => st
  | op :: ops, st => runOps ops (stepOp op st)

/-- Capacity invariant together with uniqueness of team ids (the primary
key of the teams table). -/
def TeamInv (st : TeamState) : Prop :=
  (∀ t ∈ st.teams, memberCount st t.id ≤ t.maxMembers) ∧
    (st.teams.map Team.id).Nodup

instance (st : TeamState) : Decidable (TeamInv st) := by
  unfold TeamInv
  exact inferInstance

/-! ### Search result properties at the row level -/

/-- ILIKE disjunction of the WHERE clause read off a result row, which
keeps exactly the three matched columns. -/
def rowIlikeMatch (term : List Nat) (r : SearchRow) : Bool :=
  ilikeContains term (codes r.fullName) ||
    (match r.username with
      | some s => ilikeContains term (codes s)
      | none => false) ||
    ilikeContains term (codes r.email)

/-- Ascending full_name comparison on result rows. -/
def rowOrder (a b : SearchRow) : Bool := codesLe (codes a.fullName) (codes b.fullName)

/-- Literal case-insensitive substring disjunction on a result row, the
reading the specification sentence uses. -/
def rowSubstrCI (needle : List Nat) (r : SearchRow) : Bool :=
  substrCI needle (codes r.fullName) ||
    (match r.username with
      | some s => substrCI needle (codes s)
      | none => false) ||
    substrCI needle (codes r.email)

/-! ### Noninterference machinery -/

/-- Agreement on every column other than password, code, expires_at and
is_verified. -/
def publicEq (u v : User) : Prop :=
  u.id = v.id ∧ u.email = v.email ∧ u.fullName = v.fullName ∧
    u.userName = v.userName ∧ u.avatarUrl = v.avatarUrl ∧ u.bio = v.bio ∧
    u.createdAt = v.createdAt ∧ u.updatedAt = v.updatedAt

instance (u v : User) : Decidable (publicEq u v) := by
  unfold publicEq
  exact inferInstance

/-! ### Concrete rows and inputs used by witnesses and counterexamples -/

/-- Sample stored user with every column populated. -/
def aliceUser : User :=
  { id := "u1", email := "alice@example.com", fullName := "Alice Smith",
    userName := some "alismith", password := "pw1", avatarUrl := "avatar",
    bio := "--", isVerified := true, code := "c1", expiresAt := 10,
    createdAt := 1, updatedAt := 1 }

/-- Stored user whose email is matched by a wildcard query. -/
def wildcardUser : User :=
  { id := "u2", email := "ab", fullName := "zz", userName := none,
    password := "pw2", avatarUrl := "avatar", bio := "--",
    isVerified := false, code := "c2", expiresAt := 0, createdAt := 0,
    updatedAt := 0 }

/-- Stored user for the noninterference witness. -/
def bobUser : User :=
  { id := "u3", email := "bob@example.com", fullName := "Bob Stone",
    userName := some "bob", password := "secretA", avatarUrl := "avatar",
    bio := "--", isVerified := true, code := "k1", expiresAt := 5,
    createdAt := 2, updatedAt := 3 }

/-- Same user with only password, code, expiresAt and isVerified changed. -/
def bobUserAlt : User :=
  { bobUser with
    password := "secretB"
    code := "k2"
    expiresAt := 99
    isVerified := false }

/-- Request body supplying only bio. -/
def bioOnlyBody : ProfileBody :=
  { firstName := none, lastName := none, userName := none, location := none,
    bio := some "hello", skills := none, socialLinks := none,
    interests := none }

/-- Empty team store. -/
def emptyTeamState : TeamState := ⟨[], []⟩

/-- Create a two-seat team, fill it, then attempt a third join. -/
def demoTeamOps : List TeamOp :=
  [TeamOp.create "t1" "h1" "u1" "Alpha" "d" 2,
    TeamOp.join "t1" "u2",
    TeamOp.join "t1" "u3"]

/-- The team row createTeam makes from the first demo operation. -/
def demoCreatedTeam : Team := ⟨"t1", "h1", "Alpha", "d", "u1", 2⟩

theorem ordIns_perm (le : α → α → Bool) (a : α) :
    ∀ l : List α, (ordIns le a l).Perm (a :: l)
  | [] => List.Perm.refl _
  | b :: l => by
      simp only [ordIns]
      split
      · exact List.Perm.refl _
      · exact ((ordIns_perm le a l).cons b).trans (List.Perm.swap a b l)

theorem insSort_perm (le : α → α → Bool) :
    ∀ l : List α, (insSort le l).Perm l
  | [] => List.Perm.refl _
  | a :: l =>
      (ordIns_perm le a (insSort le l)).trans ((insSort_perm le l).cons a)

theorem ordIns_pairwise (le : α → α → Bool)
    (htot : ∀ a b, le a b = true ∨ le b a = true)
    (htrans : ∀ a b c, le a b = true → le b c = true → le a c = true)
    (a : α) (l : List α) (hl : l.Pairwise (fun x y => le x y = true)) :
    (ordIns le a l).Pairwise (fun x y => le x y = true) := by
  induction l with
  | nil => simp [ordIns]
  | cons b l ih =>
      rcases List.pairwise_cons.mp hl with ⟨hb, hl2⟩
      simp only [ordIns]
      split
      · rename_i hab
        refine List.pairwise_cons.mpr ⟨?_, hl⟩
        intro c hc
        rcases List.mem_cons.mp hc with rfl | hc2
        · exact hab
        · exact htrans a b c hab (hb c hc2)
      · rename_i hab
        have hba : le b a = true := by
          rcases htot a b with h | h
          · exact absurd h hab
          · exact h
        refine List.pairwise_cons.mpr ⟨?_, ih hl2⟩
        intro c hc
        rcases List.mem_cons.mp (((ordIns_perm le a l).mem_iff).mp hc) with rfl | hc2
        · exact hba
        · exact hb c hc2

theorem insSort_pairwise (le : α → α → Bool)
    (htot : ∀ a b, le a b = true ∨ le b a = true)
    (htrans : ∀ a b c, le a b = true → le b c = true → le a c = true) :
    ∀ l : List α, (insSort le l).Pairwise (fun x y => le x y = true)
  | [] => List.Pairwise.nil
  | a :: l =>
      ordIns_pairwise le htot htrans a (insSort le l)
        (insSort_pairwise le htot htrans l)

theorem codesLe_total : ∀ a b : List Nat, codesLe a b = true ∨ codesLe b a = true
  | [], _ => Or.inl rfl
  | _ :: _, [] => Or.inr rfl
  | a :: as, b :: bs => by
      by_cases hab : a < b
      · left; simp [codesLe, hab]
      · by_cases hba : b < a
        · right; simp [codesLe, hba, hab]
        · have : ¬ a < b := hab
          rcases codesLe_total as bs with h | h
          · left; simp [codesLe, hab, hba, h]
          · right; simp [codesLe, hab, hba, h]

theorem codesLe_trans :
    ∀ a b c : List Nat, codesLe a b = true → codesLe b c = true → codesLe a c = true
  | [], _, _, _, _ => rfl
  | _ :: _, [], _, h, _ => by simp [codesLe] at h
  | _ :: _, _ :: _, [], _, h => by simp [codesLe] at h
  | a :: as, b :: bs, c :: cs, h1, h2 => by
      simp only [codesLe] at h1 h2 ⊢
      split at h1
      · rename_i hab
        split at h2
        · rename_i hbc
          simp [Nat.lt_trans hab hbc]
        · split at h2
          · exact absurd h2 (by simp)
          · rename_i hcb hbc
            have hbc2 : b = c := Nat.le_antisymm (Nat.le_of_not_lt hbc) (Nat.le_of_not_lt hcb)
            subst hbc2
            simp [hab]
      · split at h1
        · exact absurd h1 (by simp)
        · rename_i hba hab
          have hab2 : a = b := Nat.le_antisymm (Nat.le_of_not_lt hab) (Nat.le_of_not_lt hba)
          subst hab2
          split at h2
          · rename_i hac
            simp [hac]
          · split at h2
            · exact absurd h2 (by simp)
            · rename_i hca hac
              simp [hac, hca]
              exact codesLe_trans as bs cs h1 h2

/-! ### Invariant preservation for the Team Service -/

theorem memberCount_ignores_teams (ts ts2 : List Team) (ms : List Membership)
    (tid : String) : memberCount ⟨ts, ms⟩ tid = memberCount ⟨ts2, ms⟩ tid := rfl

theorem memberCount_filter_le (p : Membership → Bool) (ts ts2 : List Team)
    (ms : List Membership) (tid : String) :
    memberCount ⟨ts, ms.filter p⟩ tid ≤ memberCount ⟨ts2, ms⟩ tid := by
  simp only [memberCount, List.filter_comm]
  exact List.length_filter_le _ _

theorem inv_map_teams (g : Team → Team) (hid : ∀ t, (g t).id = t.id)
    (ts : List Team) (ms : List Membership)
    (hnd : (ts.map Team.id).Nodup)
    (hmax : ∀ t ∈ ts, memberCount ⟨ts, ms⟩ (g t).id ≤ (g t).maxMembers) :
    TeamInv ⟨ts.map g, ms⟩ := by
  constructor
  · intro t2 ht2
    rcases List.mem_map.mp ht2 with ⟨t3, ht3, rfl⟩
    exact hmax t3 ht3
  · have : (ts.map g).map Team.id = ts.map Team.id := by
      rw [List.map_map]
      exact List.map_congr_left (fun t _ => hid t)
    simpa [this] using hnd

theorem createTeam_inv (newId hackId creatorId tname descr : String)
    (maxMembers : Nat) (st st2 : TeamState) (h : TeamInv st)
    (hc : createTeam newId hackId creatorId tname descr maxMembers st = Except.ok st2) :
    TeamInv st2 := by
  simp only [createTeam] at hc
  split at hc
  · exact absurd hc (by simp)
  · split at hc
    · exact absurd hc (by simp)
    · split at hc
      · exact absurd hc (by simp)
      · rename_i hval hdup hfresh
        rcases Except.ok.inj hc with rfl
        have hmax1 : 1 ≤ maxMembers := by
          rcases Nat.lt_or_ge maxMembers 1 with hlt | hge
          · exact absurd (by simp [hlt]) hval
          · exact hge
        have hfresh2 : ¬ (st.teams.any (fun t => t.id == newId) = true) ∧
            ¬ (st.memberships.any (fun m => m.teamId == newId) = true) := by
          constructor
          · intro hx; exact hfresh (by simp [hx])
          · intro hx; exact hfresh (by simp [hx])
        constructor
        · intro t2 ht2
          rcases List.mem_cons.mp ht2 with rfl | ht2
          · have hnone : st.memberships.filter (fun m => m.teamId == newId) = [] := by
              rw [List.filter_eq_nil_iff]
              intro m hm hmid
              exact hfresh2.2 (List.any_eq_true.mpr ⟨m, hm, hmid⟩)
            simp [memberCount, List.filter_cons, hnone, hmax1]
          · have hneq : t2.id ≠ newId := by
              intro hx
              exact hfresh2.1 (List.any_eq_true.mpr ⟨t2, ht2, by simp [hx]⟩)
            have hne2 : (newId == t2.id) = false :=
              beq_eq_false_iff_ne.mpr (fun hx => hneq hx.symm)
            have := h.1 t2 ht2
            simpa [memberCount, List.filter_cons, hne2] using this
        · have hnotin : newId ∉ st.teams.map Team.id := by
            intro hx
            rcases List.mem_map.mp hx with ⟨t3, ht3, hid3⟩
            exact hfresh2.1 (List.any_eq_true.mpr ⟨t3, ht3, by simp [hid3]⟩)
          simpa [List.nodup_cons, hnotin] using h.2

theorem findTeam_mem (st : TeamState) (tid : String) (t : Team)
    (h : findTeam st tid = some t) : t ∈ st.teams ∧ t.id = tid := by
  have h2 : st.teams.find? (fun t2 => t2.id == tid) = some t := h
  exact ⟨List.mem_of_find?_eq_some h2, by simpa using List.find?_some h2⟩

theorem joinTeam_inv (tid uid : String) (st st2 : TeamState) (h : TeamInv st)
    (hj : joinTeam tid uid st = Except.ok st2) : TeamInv st2 := by
  rcases hfind : findTeam st tid with _ | t
  · simp [joinTeam, hfind] at hj
  · simp only [joinTeam, hfind] at hj
    split at hj
    · exact absurd hj (by simp)
    · split at hj
      · exact absurd hj (by simp)
      · rename_i hcap hmem
        rcases Except.ok.inj hj with rfl
        have htmem : t ∈ st.teams ∧ t.id = tid := findTeam_mem st tid t hfind
        constructor
        · intro t2 ht2
          by_cases hid2 : (tid == t2.id) = true
          · have ht2t : t2 = t := by
              apply List.inj_on_of_nodup_map h.2 ht2 htmem.1
              have h2 : tid = t2.id := by simpa using hid2
              rw [htmem.2, h2]
            subst ht2t
            have hlt : memberCount st tid < t2.maxMembers := Nat.lt_of_not_le hcap
            have hcnt : memberCount ⟨st.teams, ⟨tid, uid⟩ :: st.memberships⟩ t2.id =
                memberCount st t2.id + 1 := by
              simp [memberCount, List.filter_cons, hid2]
            rw [hcnt]
            have hideq : t2.id = tid := by simpa using htmem.2
            rw [hideq]
            exact hlt
          · have hcnt : memberCount ⟨st.teams, ⟨tid, uid⟩ :: st.memberships⟩ t2.id =
                memberCount st t2.id := by
              simp only [Bool.not_eq_true] at hid2
              simp [memberCount, List.filter_cons, hid2]
            rw [hcnt]
            exact h.1 t2 ht2
        · exact h.2

theorem leaveTeam_inv (tid uid : String) (st st2 : TeamState) (h : TeamInv st)
    (hl : leaveTeam tid uid st = Except.ok st2) : TeamInv st2 := by
  simp only [leaveTeam] at hl
  split at hl
  · exact absurd hl (by simp)
  · rcases hfind : findTeam st tid with _ | t
    · rw [hfind] at hl; exact absurd hl (by simp)
    · rw [hfind] at hl
      simp only [] at hl
      split at hl
      · split at hl
        · rcases Except.ok.inj hl with rfl
          constructor
          · intro t2 ht2
            have ht2b : t2 ∈ st.teams := List.mem_of_mem_filter ht2
            calc memberCount ⟨st.teams.filter (fun t3 => !(t3.id == tid)),
                  st.memberships.filter (fun m => !(m.teamId == tid))⟩ t2.id
                ≤ memberCount st t2.id := memberCount_filter_le _ _ _ _ _
              _ ≤ t2.maxMembers := h.1 t2 ht2b
          · exact List.Nodup.sublist
              (List.Sublist.map Team.id (List.filter_sublist st.teams)) h.2
        · exact absurd hl (by simp)
      · rcases Except.ok.inj hl with rfl
        constructor
        · intro t2 ht2
          calc memberCount ⟨st.teams,
                st.memberships.filter (fun m => !(m.teamId == tid && m.userId == uid))⟩ t2.id
              ≤ memberCount st t2.id := memberCount_filter_le _ _ _ _ _
            _ ≤ t2.maxMembers := h.1 t2 ht2
        · exact h.2

theorem removeMember_inv (tid actorId targetId : String) (st st2 : TeamState)
    (h : TeamInv st) (hr : removeMember tid actorId targetId st = Except.ok st2) :
    TeamInv st2 := by
  rcases hfind : findTeam st tid with _ | t
  · simp [removeMember, hfind] at hr
  · simp only [removeMember, hfind] at hr
    split at hr
    · exact absurd hr (by simp)
    · split at hr
      · exact absurd hr (by simp)
      · split at hr
        · exact absurd hr (by simp)
        · rcases Except.ok.inj hr with rfl
          constructor
          · intro t2 ht2
            calc memberCount ⟨st.teams,
                  st.memberships.filter (fun m => !(m.teamId == tid && m.userId == targetId))⟩ t2.id
                ≤ memberCount st t2.id := memberCount_filter_le _ _ _ _ _
              _ ≤ t2.maxMembers := h.1 t2 ht2
          · exact h.2

theorem transferLeadership_inv (tid actorId newLeaderId : String) (st st2 : TeamState)
    (h : TeamInv st) (ht : transferLeadership tid actorId newLeaderId st = Except.ok st2) :
    TeamInv st2 := by
  rcases hfind : findTeam st tid with _ | t
  · simp [transferLeadership, hfind] at ht
  · simp only [transferLeadership, hfind] at ht
    split at ht
    · exact absurd ht (by simp)
    · split at ht
      · exact absurd ht (by simp)
      · rcases Except.ok.inj ht with rfl
        apply inv_map_teams _ _ _ _ h.2
        · intro t3 ht3
          have hid : ((fun t2 => if (t2.id == tid) = true then { t2 with leaderId := newLeaderId } else t2) t3).id = t3.id := by
            by_cases hx : (t3.id == tid) = true <;> simp [hx]
          have hmx : ((fun t2 => if (t2.id == tid) = true then { t2 with leaderId := newLeaderId } else t2) t3).maxMembers = t3.maxMembers := by
            by_cases hx : (t3.id == tid) = true <;> simp [hx]
          rw [memberCount_ignores_teams _ st.teams, hid, hmx]
          exact h.1 t3 ht3
        · intro t3
          by_cases hx : (t3.id == tid) = true <;> simp [hx]

theorem updateTeamInfo_inv (tid actorId : String) (tname descr : Option String)
    (newMax : Option Nat) (st st2 : TeamState) (h : TeamInv st)
    (hu : updateTeamInfo tid actorId tname descr newMax st = Except.ok st2) :
    TeamInv st2 := by
  rcases hfind : findTeam st tid with _ | t
  · simp [updateTeamInfo, hfind] at hu
  · simp only [updateTeamInfo, hfind] at hu
    split at hu
    · exact absurd hu (by simp)
    · rcases newMax with _ | m
      · simp only [] at hu
        rcases Except.ok.inj hu with rfl
        apply inv_map_teams _ _ _ _ h.2
        · intro t3 ht3
          have hid : ∀ t4 : Team,
              ((fun t2 => if (t2.id == tid) = true then
                { t2 with name := tname.getD t2.name, description := descr.getD t2.description }
                else t2) t4).id = t4.id ∧
              ((fun t2 => if (t2.id == tid) = true then
                { t2 with name := tname.getD t2.name, description := descr.getD t2.description }
                else t2) t4).maxMembers = t4.maxMembers := by
            intro t4
            by_cases hx : (t4.id == tid) = true <;> simp [hx]
          rw [memberCount_ignores_teams _ st.teams, (hid t3).1, (hid t3).2]
          exact h.1 t3 ht3
        · intro t3
          by_cases hx : (t3.id == tid) = true <;> simp [hx]
      · simp only [] at hu
        split at hu
        · exact absurd hu (by simp)
        · rename_i hcap
          rcases Except.ok.inj hu with rfl
          apply inv_map_teams _ _ _ _ h.2
          · intro t3 ht3
            by_cases hx : (t3.id == tid) = true
            · have hid3 : t3.id = tid := by simpa using hx
              simp only [hx, if_true]
              rw [memberCount_ignores_teams _ st.teams]
              simp only [hid3]
              exact Nat.le_of_not_lt hcap
            · simp only [hx, if_false]
              rw [memberCount_ignores_teams _ st.teams]
              exact h.1 t3 ht3
          · intro t3
            by_cases hx : (t3.id == tid) = true <;> simp [hx]

theorem stepOp_inv (op : TeamOp) (st : TeamState) (h : TeamInv st) :
    TeamInv (stepOp op st) := by
  unfold stepOp
  rcases happ : applyOp op st with e | st2
  · exact h
  · rcases op with ⟨newId, hackId, creatorId, tname, descr, maxMembers⟩ |
      ⟨tid, uid⟩ | ⟨tid, uid⟩ | ⟨tid, actorId, targetId⟩ |
      ⟨tid, actorId, newLeaderId⟩ | ⟨tid, actorId, tname, descr, newMax⟩
    · exact createTeam_inv _ _ _ _ _ _ _ _ h happ
    · exact joinTeam_inv _ _ _ _ h happ
    · exact leaveTeam_inv _ _ _ _ h happ
    · exact removeMember_inv _ _ _ _ _ h happ
    · exact transferLeadership_inv _ _ _ _ _ h happ
    · exact updateTeamInfo_inv _ _ _ _ _ _ _ h happ

theorem runOps_inv (ops : List TeamOp) (st : TeamState) (h : TeamInv st) :
    TeamInv (runOps ops st) := by
  induction ops generalizing st with
  | nil => exact h
  | cons op ops ih => exact ih (stepOp op st) (stepOp_inv op st h)

theorem ordIns_map (f : α → β) (leU : α → α → Bool) (leR : β → β → Bool)
    (hle : ∀ u v, leU u v = leR (f u) (f v)) (a : α) :
    ∀ l : List α, (ordIns leU a l).map f = ordIns leR (f a) (l.map f)
  | [] => rfl
  | b :: l => by
      simp only [ordIns, List.map_cons]
      rw [hle a b]
      by_cases h : leR (f a) (f b) = true
      · simp [h]
      · simp [h, ordIns_map f leU leR hle a l]

theorem insSort_map (f : α → β) (leU : α → α → Bool) (leR : β → β → Bool)
    (hle : ∀ u v, leU u v = leR (f u) (f v)) :
    ∀ l : List α, (insSort leU l).map f = insSort leR (l.map f)
  | [] => rfl
  | a :: l => by
      simp only [insSort, List.map_cons]
      rw [ordIns_map f leU leR hle a, insSort_map f leU leR hle l]

/-- The search pipeline commutes with the projection: filtering, ordering
and truncating users then projecting equals projecting first. -/
theorem searchPipeline_eq (term : List Nat) (lim : Nat) (s : List User) :
    ((insSort userNameOrder (s.filter (matchesSearch term))).take lim).map toSearchRow =
      (insSort rowOrder ((s.map toSearchRow).filter (rowIlikeMatch term))).take lim := by
  rw [List.map_take, insSort_map toSearchRow userNameOrder rowOrder (fun u v => rfl)]
  have h1 : (s.filter (matchesSearch term)).map toSearchRow =
      (s.map toSearchRow).filter (rowIlikeMatch term) :=
    (@List.filter_map User SearchRow (rowIlikeMatch term) toSearchRow s).symm
  rw [h1]

theorem map_eq_of_forall₂ (g : User → β) (hg : ∀ u v, publicEq u v → g u = g v) :
    ∀ {s1 s2 : List User}, List.Forall₂ publicEq s1 s2 → s1.map g = s2.map g := by
  intro s1 s2 h
  induction h with
  | nil => rfl
  | cons h1 _ ih => simp only [List.map_cons, hg _ _ h1, ih]

theorem toSearchRow_publicEq (u v : User) (h : publicEq u v) :
    toSearchRow u = toSearchRow v := by
  obtain ⟨h1, h2, h3, h4, h5, h6, h7, h8⟩ := h
  simp [toSearchRow, h1, h2, h3, h4, h5, h6]

theorem getUserProfile_store_const (uid : String) (s1 s2 : List User) :
    getUserProfile uid s1 = getUserProfile uid s2 := by
  have hg : selectionResolves getUserProfileSelectKeys = false := by decide
  unfold getUserProfile
  by_cases he : uid = ""
  · simp [he]
  · simp [he, hg]

theorem getUserProfileByUsername_store_const (un : Option String)
    (s1 s2 : List User) :
    getUserProfileByUsername un s1 = getUserProfileByUsername un s2 := by
  have hg : selectionResolves getUserProfileByUsernameSelectKeys = false := by decide
  rcases un with _ | uname
  · rfl
  · unfold getUserProfileByUsername
    by_cases he : uname = ""
    · simp [he]
    · simp [he, hg]

theorem searchUsers_congr (q : Option String) (lim : Option Nat) (s1 s2 : List User)
    (hm : s1.map toSearchRow = s2.map toSearchRow) :
    searchUsers q lim s1 = searchUsers q lim s2 := by
  rcases q with _ | qs
  · rfl
  · unfold searchUsers
    by_cases hlen : (trimCodes qs).length < 2
    · simp [hlen]
    · simp only [hlen, if_false, Except.ok.injEq]
      rw [searchPipeline_eq, searchPipeline_eq, hm]

/-! ### Claim theorems -/

/-- C1: in the spec-modelled Team Service, starting from any store
satisfying the capacity invariant (with unique team ids), every sequence of
operations keeps the membership count of every team at most its maxMembers;
joinTeam fails with CapacityError whenever the found team already has at
least maxMembers members; and a successful joinTeam leaves no team above
its cap. -/
theorem team_capacity_never_exceeded (ops : List TeamOp) (st : TeamState)
    (h : TeamInv st) :
    (∀ t ∈ (runOps ops st).teams, memberCount (runOps ops st) t.id ≤ t.maxMembers) ∧
    (∀ tid uid t, findTeam st tid = some t → t.maxMembers ≤ memberCount st tid →
      joinTeam tid uid st = Except.error TeamErr.capacity) ∧
    (∀ tid uid st2, joinTeam tid uid st = Except.ok st2 →
      ∀ t ∈ st2.teams, memberCount st2 t.id ≤ t.maxMembers) := by
  refine ⟨(runOps_inv ops st h).1, ?_, ?_⟩
  · intro tid uid t hfind hcap
    simp [joinTeam, hfind, hcap]
  · intro tid uid st2 hok
    exact (joinTeam_inv tid uid st st2 h hok).1

/-- Concrete run of team_capacity_never_exceeded: a two-seat team filled by
a create and a join, with a third join rejected, stays within its cap. -/
theorem team_capacity_never_exceeded_witness :
    memberCount (runOps demoTeamOps emptyTeamState) demoCreatedTeam.id ≤
      demoCreatedTeam.maxMembers :=
  (team_capacity_never_exceeded demoTeamOps emptyTeamState (by decide)).1
    demoCreatedTeam (by decide)

/-- C2 (amended): a successful searchUsers returns at most limit rows (10
when the limit is absent), every returned row satisfies the ILIKE
disjunction built from the trimmed query over fullName, username and email
(literal substring containment when the query has no percent or underscore
wildcard), and the rows are ordered by fullName ascending. -/
theorem searchUsers_results_spec (q : String) (lim : Option Nat)
    (store : List User) (rows : List SearchRow)
    (h : searchUsers (some q) lim store = Except.ok rows) :
    rows.length ≤ lim.getD 10 ∧
    (∀ r ∈ rows, rowIlikeMatch (trimCodes q) r = true) ∧
    rows.Pairwise (fun a b => rowOrder a b = true) := by
  simp only [searchUsers] at h
  split at h
  · exact absurd h (by simp)
  · rcases Except.ok.inj h with rfl
    refine ⟨?_, ?_, ?_⟩
    · rw [List.length_map]
      exact List.length_take_le _ _
    · intro r hr
      rcases List.mem_map.mp hr with ⟨u, hu, rfl⟩
      have hu2 : u ∈ insSort userNameOrder (store.filter (matchesSearch (trimCodes q))) :=
        (List.take_sublist _ _).subset hu
      have hu3 : u ∈ store.filter (matchesSearch (trimCodes q)) :=
        ((insSort_perm _ _).mem_iff).mp hu2
      exact (List.mem_filter.mp hu3).2
    · refine List.pairwise_map.mpr ?_
      refine List.Pairwise.sublist (List.take_sublist _ _) ?_
      exact insSort_pairwise userNameOrder
        (fun a b => codesLe_total _ _) (fun a b c => codesLe_trans _ _ _) _

/-- Concrete run of searchUsers_results_spec on a store with one matching
row and an explicit limit of five. -/
theorem searchUsers_results_spec_witness :
    searchUsers (some "ali") (some 5) [aliceUser] =
        Except.ok [toSearchRow aliceUser] ∧
      [toSearchRow aliceUser].length ≤ (some 5 : Option Nat).getD 10 :=
  ⟨by rfl,
    (searchUsers_results_spec "ali" (some 5) [aliceUser] [toSearchRow aliceUser]
      (by rfl)).1⟩

/-- C2 counterexample: the valid two-character query a-underscore returns a
row none of whose matched columns contains the query as a literal
case-insensitive substring: the underscore acted as an ILIKE wildcard
against the email ab. -/
theorem searchUsers_substring_counterexample :
    searchUsers (some "a_") none [wildcardUser] =
        Except.ok [toSearchRow wildcardUser] ∧
      rowSubstrCI (codes "a_") (toSearchRow wildcardUser) = false := by
  exact ⟨by rfl, by decide⟩

/-- C3: searchUsers fails with the 400 validation error exactly when the
query is absent (or empty, a falsy value) or its trimmed length is below
two; the failure carries no rows. -/
theorem searchUsers_validation_iff (q : Option String) (lim : Option Nat)
    (store : List User) :
    searchUsers q lim store =
        Except.error ⟨400, "Search query must be at least 2 characters"⟩ ↔
      (q = none ∨ ∃ s, q = some s ∧ (trimCodes s).length < 2) := by
  rcases q with _ | s
  · simp [searchUsers]
  · by_cases hlen : (trimCodes s).length < 2
    · simp [searchUsers, hlen]
    · simp [searchUsers, hlen]

/-- C4: updateUserProfile never applies the claimed partial update: its
returning clause references the undeclared location, socialLinks, skills
and interests columns, so the query builder throws before any UPDATE is
sent, the store is unchanged (fullName stays Alice Smith), and the
response is the wrapped 500 rather than the updated profile.  The SET
entry it was about to send for fullName, the unconditional template
literal, would moreover have held the text undefined undefined with both
name parts omitted from the body. -/
theorem updateUserProfile_throws_before_write :
    (updateUserProfile bioOnlyBody "u1" 7 [aliceUser]).1 = [aliceUser] ∧
    (updateUserProfile bioOnlyBody "u1" 7 [aliceUser]).2 =
      Except.error builderError ∧
    selectionResolves updateUserProfileReturningKeys = false ∧
    aliceUser.fullName = "Alice Smith" ∧
    joinedFullName bioOnlyBody = "undefined undefined" := by
  refine ⟨by rfl, by rfl, by decide, rfl, by rfl⟩

/-- C5: with a file present, a failing storage collaborator surfaces the
500 Cloudinary-upload-failed error with the store untouched (so every
avatarUrl is unchanged); a succeeding collaborator rewrites the avatarUrl
of exactly the callers rows to its secure_url, leaves all other rows
unchanged, and responds with that url. -/
theorem uploadProfileImage_spec (uid : String) (store : List User)
    (r : UploadResult) :
    ((uploadProfileImage uid true (Except.error ()) store).1 = store ∧
      (uploadProfileImage uid true (Except.error ()) store).2 =
        Except.error ⟨500, "Cloudinary upload failed"⟩) ∧
    (List.Forall₂
        (fun u v => v.id = u.id ∧ (u.id = uid → v.avatarUrl = r.secure_url) ∧
          (u.id ≠ uid → v = u))
        store (uploadProfileImage uid true (Except.ok r) store).1 ∧
      (uploadProfileImage uid true (Except.ok r) store).2 =
        Except.ok ⟨r.secure_url⟩) := by
  refine ⟨⟨rfl, rfl⟩, ?_, rfl⟩
  show List.Forall₂ _ store (store.map _)
  induction store with
  | nil => exact List.Forall₂.nil
  | cons u l ih =>
      refine List.Forall₂.cons ?_ ih
      by_cases hx : u.id = uid
      · exact ⟨by simp [hx], fun _ => by simp [hx], fun hne => absurd hx hne⟩
      · exact ⟨by simp [hx], fun heq => absurd heq hx, fun _ => by simp [hx]⟩

/-- C6: the existence-checked reads cannot behave as claimed: the select
object of getUserProfile references the undeclared location, socialsLinks
(the source misspelling), skills and interests properties, and that of
getUserProfileByUsername the undeclared location, socialLinks, skills and
interests, so with any non-empty parameter both handlers answer the
wrapped 500 instead of a 404 or the profile fields, even on a store
containing the requested user; only the 400 for a missing userName
parameter matches the claim. -/
theorem profileReads_always_error :
    getUserProfile "u1" [aliceUser] = Except.error builderError ∧
    getUserProfileByUsername (some "alismith") [aliceUser] =
      Except.error builderError ∧
    getUserProfile "zz" [aliceUser] = Except.error builderError ∧
    getUserProfileByUsername none [aliceUser] =
      Except.error ⟨400, "Username query parameter is required"⟩ ∧
    selectionResolves getUserProfileSelectKeys = false ∧
    selectionResolves getUserProfileByUsernameSelectKeys = false := by
  refine ⟨by rfl, by rfl, by rfl, by rfl, by decide, by decide⟩

/-- C7: the users table declares no role column (its line is commented
out), although the JSDoc User typedef documents one and updateUserRole both
writes the key role and selects it in its returning clause; every other
returned key is a declared column. -/
theorem role_column_missing :
    usersTableFieldNames.contains "role" = false ∧
    userTypedefFields.contains "role" = true ∧
    updateUserRoleSetFields.contains "role" = true ∧
    updateUserRoleReturningFields.contains "role" = true ∧
    updateUserRoleReturningFields.all
      (fun f => f == "role" || usersTableFieldNames.contains f) = true := by
  decide

/-- C8: each of the seven authenticated handlers sits in a chain with
verifyJWT registered before it, the two public reads carry no verifyJWT,
and every registered route ends in one of those nine handlers. -/
theorem teams_routes_auth :
    authRequiredHandlers.all (fun h => teamsRoutes.any (handlerBehindAuth h)) = true ∧
    publicHandlers.all (fun h => teamsRoutes.any (handlerPublic h)) = true ∧
    teamsRoutes.all (fun r =>
      match r.chain.getLast? with
      | some h => authRequiredHandlers.contains h || publicHandlers.contains h
      | none => false) = true := by
  decide

/-- C9: updateUserProfile leaves email, password, avatarUrl, isVerified,
code and expiresAt of every stored row unchanged, whatever the request
body contains. -/
theorem updateUserProfile_frame (b : ProfileBody) (uid : String) (now : Nat)
    (store : List User) :
    List.Forall₂
      (fun u v => v.email = u.email ∧ v.password = u.password ∧
        v.avatarUrl = u.avatarUrl ∧ v.isVerified = u.isVerified ∧
        v.code = u.code ∧ v.expiresAt = u.expiresAt)
      store (updateUserProfile b uid now store).1 := by
  have hg : selectionResolves updateUserProfileReturningKeys = false := by decide
  have hs : (updateUserProfile b uid now store).1 = store := by
    unfold updateUserProfile
    simp [hg]
  rw [hs]
  clear hs
  induction store with
  | nil => exact List.Forall₂.nil
  | cons u l ih => exact List.Forall₂.cons ⟨rfl, rfl, rfl, rfl, rfl, rfl⟩ ih

/-- C10: the three read endpoints respond identically on any two stores
agreeing on every column other than password, code, expiresAt and
isVerified, so responses neither include nor depend on those fields. -/
theorem reads_noninterference (s1 s2 : List User)
    (h : List.Forall₂ publicEq s1 s2) :
    (∀ uid, getUserProfile uid s1 = getUserProfile uid s2) ∧
    (∀ un, getUserProfileByUsername un s1 = getUserProfileByUsername un s2) ∧
    (∀ q lim, searchUsers q lim s1 = searchUsers q lim s2) := by
  refine ⟨?_, ?_, ?_⟩
  · intro uid
    exact getUserProfile_store_const uid s1 s2
  · intro un
    exact getUserProfileByUsername_store_const un s1 s2
  · intro q lim
    exact searchUsers_congr q lim s1 s2
      (map_eq_of_forall₂ toSearchRow toSearchRow_publicEq h)

/-- Concrete run of reads_noninterference on two one-row stores differing
only in password, code, expiresAt and isVerified. -/
theorem reads_noninterference_witness :
    getUserProfile "u3" [bobUser] = getUserProfile "u3" [bobUserAlt] ∧
    searchUsers (some "bo") none [bobUser] =
      searchUsers (some "bo") none [bobUserAlt] :=
  ⟨(reads_noninterference [bobUser] [bobUserAlt]
      (List.Forall₂.cons (by decide) List.Forall₂.nil)).1 "u3",
    (reads_noninterference [bobUser] [bobUserAlt]
      (List.Forall₂.cons (by decide) List.Forall₂.nil)).2.2 (some "bo") none⟩

end HackFuture
